import Mathlib

/-!
Verification development for the AN6007-EMA electricity management system.

The Python sources (APIs.py, daily.py, restore.py) are shallowly embedded:

* `datetime` values become the `DateTime` structure below, ordered by an
  injective-on-well-formed-values numeric key (Python datetimes are always
  well formed, i.e. field values lie in their calendar ranges);
* Python `dict`s become association lists with unique keys, where insertion
  at an existing key replaces the value in place and insertion at a fresh
  key appends (Python dicts preserve insertion order exactly this way);
* `float` readings become rationals;
* functions that raise become `Except`-valued functions;
* the file system (Archive CSVs, operational logs) becomes explicit data
  passed to the functions that read or write it.
-/

set_option maxHeartbeats 1000000

/-- Model of a Python `datetime.datetime` value. -/
structure DateTime where
  year : Nat
  month : Nat
  day : Nat
  hour : Nat
  minute : Nat
  second : Nat
  microsecond : Nat
deriving DecidableEq, Repr

namespace DateTime

/-- Numeric key realising the lexicographic field order of Python datetimes.
Injective on well-formed values (`WF`). -/
def key (t : DateTime) : Nat :=
  t.microsecond +
    1000000 * (t.second + 64 * (t.minute + 64 * (t.hour + 32 *
      (t.day + 32 * (t.month + 16 * t.year)))))

/-- Calendar well-formedness: every real Python datetime satisfies this. -/
def WF (t : DateTime) : Prop :=
  t.month < 16 ∧ t.day < 32 ∧ t.hour < 32 ∧ t.minute < 64 ∧ t.second < 64 ∧
    t.microsecond < 1000000

instance (t : DateTime) : Decidable t.WF := by
  unfold WF; infer_instance

theorem key_inj {a b : DateTime} (ha : a.WF) (hb : b.WF) (h : a.key = b.key) :
    a = b := by
  obtain ⟨a1, a2, a3, a4, a5, a6, a7⟩ := a
  obtain ⟨b1, b2, b3, b4, b5, b6, b7⟩ := b
  simp only [key, WF] at ha hb h
  simp only [mk.injEq]
  omega

end DateTime

/-- Python comparison `a <= b` on datetimes. -/
def dtle (a b : DateTime) : Prop := a.key ≤ b.key

/-- Python comparison `a < b` on datetimes. -/
def dtlt (a b : DateTime) : Prop := a.key < b.key

instance (a b : DateTime) : Decidable (dtle a b) := by unfold dtle; infer_instance
instance (a b : DateTime) : Decidable (dtlt a b) := by unfold dtlt; infer_instance

theorem dtle_refl (a : DateTime) : dtle a a := Nat.le_refl _

theorem dtle_trans {a b c : DateTime} (h1 : dtle a b) (h2 : dtle b c) :
    dtle a c := Nat.le_trans h1 h2

theorem dtle_total (a b : DateTime) : dtle a b ∨ dtle b a := Nat.le_total _ _

theorem dtle_antisymm {a b : DateTime} (ha : a.WF) (hb : b.WF)
    (h1 : dtle a b) (h2 : dtle b a) : a = b :=
  DateTime.key_inj ha hb (Nat.le_antisymm h1 h2)

/-! ### Association lists with Python-dict semantics -/

/-- Lookup in an association list (first binding wins; Python dicts have
unique keys, so this is exact dict indexing). -/
def alookup {α β : Type} [DecidableEq α] : List (α × β) → α → Option β
  | [], _ => none
  | p :: l, k => if p.1 = k then some p.2 else alookup l k

/-- Python `d[k] = v`: replace in place when the key exists, append when
it is fresh.  This is exactly how Python dicts evolve. -/
def dictInsert {α β : Type} [DecidableEq α] (l : List (α × β)) (k : α) (v : β) :
    List (α × β) :=
  if (alookup l k).isSome then
    l.map (fun p => if p.1 = k then (k, v) else p)
  else
    l ++ [(k, v)]

section AListLemmas

variable {α β : Type} [DecidableEq α]

@[simp] theorem alookup_nil (k : α) : alookup ([] : List (α × β)) k = none := rfl

theorem alookup_cons (p : α × β) (l : List (α × β)) (k : α) :
    alookup (p :: l) k = if p.1 = k then some p.2 else alookup l k := rfl

theorem alookup_append (l1 l2 : List (α × β)) (k : α) :
    alookup (l1 ++ l2) k =
      ((alookup l1 k).rec (alookup l2 k) (fun v => some v) : Option β) := by
  induction l1 with
  | nil => simp
  | cons p l ih =>
    by_cases h : p.1 = k <;> simp [alookup_cons, h, ih]

theorem alookup_map_replace (l : List (α × β)) (k k2 : α) (v : β) :
    alookup (l.map (fun p => if p.1 = k then (k, v) else p)) k2 =
      if k = k2 then ((alookup l k).rec none (fun _ => some v) : Option β)
      else alookup l k2 := by
  induction l with
  | nil => by_cases h : k = k2 <;> simp [h]
  | cons p l ih =>
    simp only [List.map_cons, alookup_cons]
    by_cases hp : p.1 = k
    · by_cases hk : k = k2
      · subst hk; simp [hp]
      · have hp2 : ¬ (p.1 = k2) := fun h => hk (hp ▸ h)
        simp [hp, hk, hp2, ih]
    · by_cases hpk2 : p.1 = k2
      · have hkk : ¬ (k = k2) := fun h => hp (h ▸ hpk2)
        have hk2k : ¬ (k2 = k) := fun h => hkk h.symm
        simp [hp, hpk2, hkk, hk2k, ih]
      · simp [hp, hpk2, ih]

theorem alookup_dictInsert_self (l : List (α × β)) (k : α) (v : β) :
    alookup (dictInsert l k v) k = some v := by
  unfold dictInsert
  by_cases h : (alookup l k).isSome
  · rw [if_pos h, alookup_map_replace, if_pos rfl]
    obtain ⟨w, hw⟩ := Option.isSome_iff_exists.mp h
    rw [hw]
  · rw [if_neg h, alookup_append]
    rw [Option.not_isSome_iff_eq_none] at h
    rw [h]
    simp [alookup_cons]

theorem alookup_dictInsert_ne (l : List (α × β)) (k k2 : α) (v : β)
    (h : k ≠ k2) : alookup (dictInsert l k v) k2 = alookup l k2 := by
  unfold dictInsert
  by_cases hs : (alookup l k).isSome
  · rw [if_pos hs, alookup_map_replace, if_neg h]
  · rw [if_neg hs, alookup_append]
    cases hl : alookup l k2 with
    | none => simp [alookup_cons, fun hh => h hh]
    | some w => simp

theorem alookup_dictInsert (l : List (α × β)) (k k2 : α) (v : β) :
    alookup (dictInsert l k v) k2 =
      if k = k2 then some v else alookup l k2 := by
  by_cases h : k = k2
  · subst h; simp [alookup_dictInsert_self]
  · simp [h, alookup_dictInsert_ne l k k2 v h]

end AListLemmas

/-! ### The in-memory ledger: `ElectricityAccount` (APIs.py lines 56-100) -/

instance : Inhabited DateTime := ⟨⟨0, 0, 0, 0, 0, 0, 0⟩⟩

instance : IsTotal DateTime dtle := ⟨dtle_total⟩

instance : IsTrans DateTime dtle := ⟨fun _ _ _ => dtle_trans⟩

/-- Embedding of `ElectricityAccount.__init__` (APIs.py lines 59-65).
`meter_readings` is the Python dict `{timestamp: reading}`; `created_at`
is irrelevant to every claim and omitted. -/
structure ElectricityAccount where
  meter_id : String
  owner_name : String
  address : String
  family_members : List String
  meter_readings : List (DateTime × Rat)
deriving DecidableEq, Repr

inductive ConsumptionError where
  | noReadings
  | insufficientReadings
deriving DecidableEq, Repr

/-- The dict comprehension of APIs.py line 84: the readings with
`start_time <= ts <= end_time` (closed interval), in dict order. -/
def relevantReadings (a : ElectricityAccount) (start_time end_time : DateTime) :
    List (DateTime × Rat) :=
  a.meter_readings.filter
    (fun p => decide (dtle start_time p.1) && decide (dtle p.1 end_time))

/-- The `sorted(relevant_readings.keys())` of APIs.py line 91. -/
def sortedTimestamps (a : ElectricityAccount) (start_time end_time : DateTime) :
    List DateTime :=
  List.insertionSort dtle ((relevantReadings a start_time end_time).map Prod.fst)

/-- Embedding of `ElectricityAccount.calculate_consumption` (APIs.py lines
67-100): filter the dict to `start_time <= ts <= end_time` (closed interval),
raise if empty, sort the kept timestamps, raise if fewer than two, and return
`readings[timestamps[-1]] - readings[timestamps[0]]`.  Dict indexing is total
in Python; `(alookup _).getD 0` realises it, and the default is never taken
because the sorted timestamps are exactly the kept keys. -/
def ElectricityAccount.calculate_consumption (a : ElectricityAccount)
    (start_time end_time : DateTime) : Except ConsumptionError Rat :=
  if (relevantReadings a start_time end_time).isEmpty then .error .noReadings
  else if (sortedTimestamps a start_time end_time).length < 2 then
    .error .insufficientReadings
  else .ok
    ((alookup (relevantReadings a start_time end_time)
        (sortedTimestamps a start_time end_time).getLast!).getD 0 -
     (alookup (relevantReadings a start_time end_time)
        (sortedTimestamps a start_time end_time).head!).getD 0)

/-! ### The management system: ingestion (APIs.py lines 102-219) -/

/-- State of `ElectricityManagementSystem`: the accounts dict and the
receiving gate.  (`archived_readings` is initialised in `__init__` but never
touched again anywhere in the source, so it is not modelled.) -/
structure ElectricityManagementSystem where
  accounts : List (String × ElectricityAccount)
  is_receiving_data : Bool
deriving DecidableEq, Repr

inductive RecordError where
  | systemShutdown
  | meterNotFound
  | invalidTimestamp
deriving DecidableEq, Repr

/-- The timestamp-format condition of APIs.py line 202. -/
def validSlot (t : DateTime) : Prop :=
  (t.minute = 0 ∨ t.minute = 30) ∧ t.second = 0

instance (t : DateTime) : Decidable (validSlot t) := by
  unfold validSlot; infer_instance

/-- The mutation `account.meter_readings[timestamp] = reading` of APIs.py
line 209, as a function on the account. -/
def updateReadings (timestamp : DateTime) (reading : Rat)
    (a : ElectricityAccount) : ElectricityAccount :=
  { a with meter_readings := dictInsert a.meter_readings timestamp reading }

/-- Embedding of `ElectricityManagementSystem.record_meter_reading`
(APIs.py lines 172-211).  The checks appear in source order: the receiving
gate first (line 190), then account existence (line 196), then the
timestamp format (line 202); on success the reading is stored under its
timestamp in the account dict (line 209) and `True` is returned. -/
def record_meter_reading (ems : ElectricityManagementSystem)
    (meter_id : String) (timestamp : DateTime) (reading : Rat) :
    Except RecordError (Bool × ElectricityManagementSystem) :=
  if ems.is_receiving_data = false then .error .systemShutdown
  else if (alookup ems.accounts meter_id).isNone then .error .meterNotFound
  else if ¬ validSlot timestamp then .error .invalidTimestamp
  else .ok (true,
    { ems with accounts := ems.accounts.map (fun p =>
        if p.1 = meter_id then (p.1, updateReadings timestamp reading p.2)
        else p) })

/-- APIs.py line 215. -/
def shutdown_system (ems : ElectricityManagementSystem) :
    ElectricityManagementSystem :=
  { ems with is_receiving_data := false }

/-- APIs.py line 219. -/
def resume_system (ems : ElectricityManagementSystem) :
    ElectricityManagementSystem :=
  { ems with is_receiving_data := true }

/-! ### Normalisation of `now` (APIs.py lines 238-244) -/

/-- Embedding of the inline now-adjustment at the top of `get_consumption`
(APIs.py lines 238-244): minutes above 30 clamp to 30, minutes in 1..30
clamp to 0, minute 0 is kept; seconds and microseconds are zeroed in every
branch. -/
def adjust_now (now : DateTime) : DateTime :=
  if 30 < now.minute then { now with minute := 30, second := 0, microsecond := 0 }
  else if 0 < now.minute then { now with minute := 0, second := 0, microsecond := 0 }
  else { now with second := 0, microsecond := 0 }

/-! ### Archived monthly data queries (APIs.py lines 246-279 and 299-361)

Both `get_consumption(period='last_month')` and `get_last_month_bill`
compute the same archive path `Archive/monthly_YYYY-MM.csv` from
`datetime.now()` and read the same file; the functions below take that
file's parsed rows as input. -/

/-- One row of a monthly archive CSV (columns meter_id, timestamp, reading). -/
structure ArchiveRow where
  meter_id : String
  timestamp : DateTime
  reading : Rat
deriving DecidableEq, Repr

instance : Inhabited ArchiveRow := ⟨⟨"", default, 0⟩⟩

inductive QueryError where
  | noDataForMeter
deriving DecidableEq, Repr

/-- Pandas `Series.max` over a non-empty column. -/
def colMax : List Rat → Rat
  | [] => 0
  | x :: xs => xs.foldl max x

/-- Pandas `Series.min` over a non-empty column. -/
def colMin : List Rat → Rat
  | [] => 0
  | x :: xs => xs.foldl min x

/-- Timestamp order on archive rows, used by `sort_values('timestamp')`. -/
def rowLe (a b : ArchiveRow) : Prop := dtle a.timestamp b.timestamp

instance (a b : ArchiveRow) : Decidable (rowLe a b) := by
  unfold rowLe; infer_instance

theorem rowLe_refl (x : ArchiveRow) : rowLe x x := dtle_refl x.timestamp

instance : IsTotal ArchiveRow rowLe := ⟨fun _ _ => dtle_total _ _⟩

instance : IsTrans ArchiveRow rowLe := ⟨fun _ _ _ => dtle_trans⟩

/-- Embedding of the `last_month` branch of `get_consumption` (APIs.py lines
253-269): filter the archive rows to the meter, fail if none, and return
`reading.max() - reading.min()` — the difference of the column extrema,
with no sorting by timestamp. -/
def get_consumption_last_month (rows : List ArchiveRow) (meter_id : String) :
    Except QueryError Rat :=
  let meter_data := rows.filter (fun r => decide (r.meter_id = meter_id))
  if meter_data.isEmpty then .error .noDataForMeter
  else .ok (colMax (meter_data.map ArchiveRow.reading) -
            colMin (meter_data.map ArchiveRow.reading))

/-- Result payload of `get_last_month_bill` (APIs.py lines 344-351); the
period string is derived from `datetime.now()` alone and carries no
information about the readings, so it is not modelled. -/
structure BillDetails where
  start_reading : Rat
  end_reading : Rat
  consumption : Rat
  start_time : DateTime
  end_time : DateTime
deriving DecidableEq, Repr

/-- Embedding of `get_last_month_bill` (APIs.py lines 323-351): filter the
archive rows to the meter, fail if none, sort by timestamp, and take the
first and last rows of the sorted frame. -/
def get_last_month_bill (rows : List ArchiveRow) (meter_id : String) :
    Except QueryError BillDetails :=
  let meter_data := rows.filter (fun r => decide (r.meter_id = meter_id))
  if meter_data.isEmpty then .error .noDataForMeter
  else
    let sorted := List.insertionSort rowLe meter_data
    .ok { start_reading := sorted.head!.reading
          end_reading := sorted.getLast!.reading
          consumption := sorted.getLast!.reading - sorted.head!.reading
          start_time := sorted.head!.timestamp
          end_time := sorted.getLast!.timestamp }

/-! ### Calendar arithmetic and key formatting for the archiver -/

/-- Calendar date (the result of Python `.date()`). -/
structure Date where
  year : Nat
  month : Nat
  day : Nat
deriving DecidableEq, Repr

def DateTime.date (t : DateTime) : Date := ⟨t.year, t.month, t.day⟩

def isLeapYear (y : Nat) : Bool :=
  (y % 4 == 0 && y % 100 != 0) || y % 400 == 0

def daysInMonth (y m : Nat) : Nat :=
  if m = 2 then (if isLeapYear y then 29 else 28)
  else if m = 4 ∨ m = 6 ∨ m = 9 ∨ m = 11 then 30
  else 31

/-- The date one `timedelta(days=1)` earlier. -/
def predDate (d : Date) : Date :=
  if 1 < d.day then ⟨d.year, d.month, d.day - 1⟩
  else if 1 < d.month then ⟨d.year, d.month - 1, daysInMonth d.year (d.month - 1)⟩
  else ⟨d.year - 1, 12, 31⟩

/-- The date one `timedelta(days=1)` later. -/
def succDate (d : Date) : Date :=
  if d.day < daysInMonth d.year d.month then ⟨d.year, d.month, d.day + 1⟩
  else if d.month < 12 then ⟨d.year, d.month + 1, 1⟩
  else ⟨d.year + 1, 1, 1⟩

/-- Python `datetime.combine(date, datetime.min.time())`. -/
def midnight (d : Date) : DateTime := ⟨d.year, d.month, d.day, 0, 0, 0, 0⟩

def pad2 (n : Nat) : String :=
  if n < 10 then "0" ++ toString n else toString n

def pad4 (n : Nat) : String :=
  if n < 10 then "000" ++ toString n
  else if n < 100 then "00" ++ toString n
  else if n < 1000 then "0" ++ toString n
  else toString n

/-- Python `date.isoformat()` / `strftime('%Y-%m-%d')`. -/
def isoDate (d : Date) : String :=
  pad4 d.year ++ "-" ++ pad2 d.month ++ "-" ++ pad2 d.day

/-- Python `strftime('%Y-%m')`. -/
def monthKey (d : Date) : String := pad4 d.year ++ "-" ++ pad2 d.month

/-! ### The archiver `ElectricityManagementSystem.archive_readings`
(APIs.py lines 363-432) -/

/-- The system together with the durable Archive directory, modelled as a
dict from file name to the rows last written to that file. -/
structure ArchSystem where
  ems : ElectricityManagementSystem
  files : List (String × List ArchiveRow)
deriving DecidableEq, Repr

/-- Window and file name computed inside the loop of `archive_readings`
(APIs.py lines 383-399); they depend only on `period` and `now`, so each
loop iteration computes the same triple.  For `monthly` the window is the
previous calendar month, otherwise (the `else` branch, i.e. daily) the
previous calendar day; both windows are half-open. -/
def archiveWindow (period : String) (now : DateTime) :
    DateTime × DateTime × String :=
  if period = "monthly" then
    let first_day_this_month : DateTime :=
      { now with day := 1, hour := 0, minute := 0, second := 0, microsecond := 0 }
    let last_month := predDate first_day_this_month.date
    (midnight ⟨last_month.year, last_month.month, 1⟩, first_day_this_month,
      period ++ "_" ++ monthKey last_month ++ ".csv")
  else
    let yesterday := predDate now.date
    (midnight yesterday, midnight (succDate yesterday),
      period ++ "_" ++ isoDate yesterday ++ ".csv")

/-- The membership test `day_start <= ts < day_end` (respectively
`month_start <= ts < month_end`) of APIs.py lines 403-407, as a boolean
predicate on timestamps. -/
def archWin (period : String) (now : DateTime) : DateTime → Bool :=
  fun ts => decide (dtle (archiveWindow period now).1 ts) &&
    decide (dtlt ts (archiveWindow period now).2.1)

/-- The per-account body of the archiving loop (APIs.py lines 401-420),
restricted to its effect on the account: when the account has readings in
the window and `clear_memory` is set, those readings are deleted from its
dict; otherwise the account is untouched. -/
def archEvict (win : DateTime → Bool) (clear_memory : Bool)
    (p : String × ElectricityAccount) : String × ElectricityAccount :=
  if (p.2.meter_readings.filter (fun q => win q.1)).isEmpty then p
  else if clear_memory then
    (p.1, { p.2 with
      meter_readings := p.2.meter_readings.filter (fun q => ! win q.1) })
  else p

/-- The `all_readings` rows collected by the loop (APIs.py lines 409-415),
in loop order. -/
def archRows (win : DateTime → Bool)
    (accounts : List (String × ElectricityAccount)) : List ArchiveRow :=
  accounts.flatMap (fun p =>
    (p.2.meter_readings.filter (fun q => win q.1)).map
      (fun q => ArchiveRow.mk p.1 q.1 q.2))

/-- Embedding of `archive_readings` (APIs.py lines 363-432).  The Python
loop walks the accounts dict, collects each account's readings inside the
window into `all_readings`, and — when `clear_memory` is set and the account
had such readings — deletes them from that account's dict before the loop
moves on; only after the loop does `df.to_csv` overwrite the archive file
with the collected rows (no write happens when nothing was collected).
`writeOk` models whether `to_csv` succeeds: on an exception the `except`
branch returns `False`, but the in-loop deletions have already happened
and are not rolled back. -/
def archApply (win : DateTime → Bool) (clear_memory : Bool)
    (ems : ElectricityManagementSystem) : ElectricityManagementSystem :=
  { ems with accounts := ems.accounts.map (archEvict win clear_memory) }

def archive_readings (sys : ArchSystem) (period : String)
    (clear_memory : Bool) (writeOk : Bool) (now : DateTime) :
    Bool × ArchSystem :=
  if (archRows (archWin period now) sys.ems.accounts).isEmpty then
    (true, { ems := archApply (archWin period now) clear_memory sys.ems,
             files := sys.files })
  else if writeOk then
    (true, { ems := archApply (archWin period now) clear_memory sys.ems,
             files := dictInsert sys.files (archiveWindow period now).2.2
               (archRows (archWin period now) sys.ems.accounts) })
  else
    (false, { ems := archApply (archWin period now) clear_memory sys.ems,
              files := sys.files })

/-! ### The daily maintenance CSV writer
(`DailyMaintenance._save_readings_to_csv`, daily.py lines 67-110) -/

/-- Reading an existing per-meter CSV back into a dict (daily.py lines
90-97): rows are inserted in file order, a later row at a repeated
timestamp overwriting an earlier one, exactly as the Python loop does. -/
def readCsvDict (rows : List (DateTime × Rat)) : List (DateTime × Rat) :=
  rows.foldl (fun d p => dictInsert d p.1 p.2) []

/-- Embedding of `_save_readings_to_csv` (daily.py lines 67-110).  `file`
is the current content of `Archive/YYYY/MM/<meter>.csv` (`none` when the
file does not exist).  With no readings the function returns immediately;
otherwise it merges `{**existing_readings, **readings}` — the new readings
overwriting existing ones at the same timestamp — and rewrites the file in
full, sorted by timestamp. -/
def save_readings_to_csv (file : Option (List (DateTime × Rat)))
    (readings : List (DateTime × Rat)) : Option (List (DateTime × Rat)) :=
  if readings.isEmpty then file
  else
    let existing_readings := match file with
      | none => []
      | some rows => readCsvDict rows
    let all_readings := readings.foldl
      (fun d p => dictInsert d p.1 p.2) existing_readings
    let ks := List.insertionSort dtle (all_readings.map Prod.fst)
    some (ks.map (fun t => (t, (alookup all_readings t).getD 0)))

/-! ### The recovery replayer (`DataRestorer`, restore.py) -/

/-- A line of today's operational log, abstracted to whether it matches the
successful-ingestion regex of `_parse_log_line` (restore.py line 72) and,
if so, which meter id, reading timestamp and reading value the regex
groups carry.  (The leading log-clock timestamp is parsed by the source
and then discarded, so it is not modelled.) -/
inductive LogLine where
  | reading (meter_id : String) (timestamp : DateTime) (value : Rat)
  | other
deriving DecidableEq, Repr

/-- Embedding of `_parse_log_line` (restore.py lines 57-91): a line that
does not match the regex yields `None`; a matching line whose reading
timestamp has minute outside {0, 30} or nonzero seconds yields `None`
(logged as a warning); otherwise the parsed triple is returned. -/
def parse_log_line : LogLine → Option (String × DateTime × Rat)
  | .reading m ts v => if validSlot ts then some (m, ts, v) else none
  | .other => none

/-- The nested `{meter_id: {timestamp: reading}}` dict of restore.py. -/
abbrev RestoredReadings := List (String × List (DateTime × Rat))

/-- Indexing `readings[meter_id][timestamp]`, as an `Option`. -/
def alookup2 (r : RestoredReadings) (m : String) (ts : DateTime) : Option Rat :=
  match alookup r m with
  | none => none
  | some d => alookup d ts

/-- The assignment `readings[meter_id][timestamp] = value`, creating the
inner dict when the meter key is absent. -/
def dictInsert2 (r : RestoredReadings) (m : String) (ts : DateTime)
    (v : Rat) : RestoredReadings :=
  match alookup r m with
  | none => dictInsert r m (dictInsert [] ts v)
  | some d => dictInsert r m (dictInsert d ts v)

/-- Outcome of `_validate_reading` (restore.py lines 93-123).  The Python
function returns a bool — `True` exactly for `ok` — but logs different
warnings in the three `False` cases; the conflict case (existing value
differing by more than 0.01) is kept distinct here because the spec talks
about recorded conflicts. -/
inductive ValidateStatus where
  | ok
  | badTimestamp
  | conflict
  | duplicate
deriving DecidableEq, Repr

/-- Embedding of `_validate_reading` (restore.py lines 93-123): reject a
misaligned timestamp; reject any reading whose (meter, timestamp) is
already present — as a `conflict` when the existing value differs by more
than the 0.01 tolerance, as a silent `duplicate` otherwise; accept the
rest. -/
def validate_reading (m : String) (ts : DateTime) (v : Rat)
    (readings : RestoredReadings) : ValidateStatus :=
  if ¬ validSlot ts then .badTimestamp
  else
    match alookup2 readings m ts with
    | some existing => if |existing - v| > 1/100 then .conflict else .duplicate
    | none => .ok

/-- Embedding of `_get_today_readings_from_logs` (restore.py lines
125-155): fold over today's log lines, and for every line the regex parses
(and whose timestamp `_parse_log_line` accepted) assign
`readings[meter_id][timestamp] = reading` — a later line at the same
(meter, timestamp) silently overwriting an earlier one. -/
def get_today_readings_from_logs (lines : List LogLine) : RestoredReadings :=
  lines.foldl (fun r line =>
    match parse_log_line line with
    | some (m, ts, v) => dictInsert2 r m ts v
    | none => r) []

/-- A conflict warning recorded by `_validate_reading` (restore.py line
116). -/
structure ConflictRecord where
  meter_id : String
  timestamp : DateTime
  existing : Rat
  incoming : Rat
deriving DecidableEq, Repr

/-- One candidate insertion inside `restore_data`: insert when
`_validate_reading` accepts, record the warning on a conflict, silently
skip a duplicate or a misaligned timestamp. -/
def restoreStep (acc : RestoredReadings × List ConflictRecord)
    (m : String) (ts : DateTime) (v : Rat) :
    RestoredReadings × List ConflictRecord :=
  match validate_reading m ts v acc.1 with
  | .ok => (dictInsert2 acc.1 m ts v, acc.2)
  | .conflict =>
      (acc.1, acc.2 ++
        [{ meter_id := m, timestamp := ts,
           existing := (alookup2 acc.1 m ts).getD 0, incoming := v }])
  | .duplicate => acc
  | .badTimestamp => acc

/-- Step 2 of `restore_data` (restore.py lines 190-199): walk the
per-meter dicts recovered from today's log; ensure the meter key exists
(an empty dict is created even when every entry is then rejected), then
validate and insert each (timestamp, reading) pair. -/
def restore_from_logs (acc : RestoredReadings × List ConflictRecord)
    (today : RestoredReadings) : RestoredReadings × List ConflictRecord :=
  today.foldl (fun acc p =>
    let acc1 := if (alookup acc.1 p.1).isNone
      then (dictInsert acc.1 p.1 [], acc.2) else acc
    p.2.foldl (fun a q => restoreStep a p.1 q.1 q.2) acc1) acc

/-- Embedding of `restore_data` (restore.py lines 157-203).  `csvFiles` is
the parsed row list of each daily CSV of the current month, in sorted file
order; `logLines` is today's operational log.  Step 1 replays the CSV rows
through `_validate_reading`; step 2 replays today's log-derived readings.
(A row that fails text-level parsing aborts its file's remaining rows in
the source — absorbed by the per-file `except` — which only shortens a
`csvFiles` entry and is therefore covered by quantifying over all row
lists.) -/
def restore_data (csvFiles : List (List ArchiveRow)) (logLines : List LogLine) :
    RestoredReadings × List ConflictRecord :=
  let step1 := csvFiles.foldl (fun acc rows =>
    rows.foldl (fun a r => restoreStep a r.meter_id r.timestamp r.reading) acc)
    ([], [])
  restore_from_logs step1 (get_today_readings_from_logs logLines)

/-! ### General helper lemmas -/

section Helpers

variable {α β : Type} [DecidableEq α]

theorem alookup_isSome_iff_mem (l : List (α × β)) (k : α) :
    (alookup l k).isSome ↔ k ∈ l.map Prod.fst := by
  induction l with
  | nil => simp
  | cons p t ih =>
    by_cases h : p.1 = k
    · simp [alookup_cons, h]
    · have : ¬ (k = p.1) := fun hh => h hh.symm
      simp [alookup_cons, h, ih, this]

theorem alookup_eq_some_of_mem_nodup {l : List (α × β)} {k : α} {v : β}
    (hmem : (k, v) ∈ l) (hnd : (l.map Prod.fst).Nodup) :
    alookup l k = some v := by
  induction l with
  | nil => simp at hmem
  | cons p t ih =>
    simp only [List.map_cons, List.nodup_cons] at hnd
    rcases List.mem_cons.mp hmem with h | h
    · subst h; simp [alookup_cons]
    · have hk : ¬ (p.1 = k) := by
        intro hh
        exact hnd.1 (hh ▸ (List.mem_map.mpr ⟨(k, v), h, rfl⟩))
      simp [alookup_cons, hk, ih h hnd.2]

theorem alookup_map_pair (ks : List α) (f : α → β) (k : α) :
    alookup (ks.map (fun t => (t, f t))) k =
      if k ∈ ks then some (f k) else none := by
  induction ks with
  | nil => simp
  | cons t ks ih =>
    by_cases h : t = k
    · subst h; simp [alookup_cons]
    · have : ¬ (k = t) := fun hh => h hh.symm
      simp [alookup_cons, h, this, ih]


/-- Lookup after modifying the value stored at one key in place. -/
theorem alookup_map_modify (l : List (α × β)) (m k : α) (f : β → β) :
    alookup (l.map (fun p => if p.1 = m then (p.1, f p.2) else p)) k =
      if k = m then (alookup l m).map f else alookup l k := by
  induction l with
  | nil => by_cases h : k = m <;> simp [h]
  | cons p t ih =>
    by_cases hp : p.1 = m
    · by_cases hk : k = m
      · subst hk; simp [alookup_cons, hp, ih]
      · have hmk : ¬ (m = k) := fun hh => hk hh.symm
        have hpk : ¬ (p.1 = k) := fun hh => hmk (hp.symm.trans hh)
        simp [alookup_cons, hp, hk, hmk, hpk, ih]
    · by_cases hpk : p.1 = k
      · have hk : ¬ (k = m) := fun hh => hp (hpk ▸ hh)
        simp [alookup_cons, hp, hpk, hk]
      · simp [alookup_cons, hp, hpk, ih]

/-- Re-inserting the binding a dict already holds changes nothing. -/
theorem dictInsert_idem (l : List (α × β)) (k : α) (v : β) :
    dictInsert (dictInsert l k v) k v = dictInsert l k v := by
  have hmem : ∀ p ∈ dictInsert l k v, p.1 = k → p = (k, v) := by
    intro p hp hpk
    unfold dictInsert at hp
    by_cases hs : (alookup l k).isSome
    · rw [if_pos hs] at hp
      obtain ⟨q, _, hq⟩ := List.mem_map.mp hp
      by_cases hqk : q.1 = k
      · rw [if_pos hqk] at hq; exact hq.symm
      · rw [if_neg hqk] at hq; exact absurd (hq ▸ hpk) hqk
    · rw [if_neg hs] at hp
      rcases List.mem_append.mp hp with h | h
      · exfalso
        exact hs ((alookup_isSome_iff_mem l k).mpr
          (hpk ▸ List.mem_map.mpr ⟨p, h, rfl⟩))
      · simpa using h
  have hsome : (alookup (dictInsert l k v) k).isSome := by
    rw [alookup_dictInsert_self]; rfl
  generalize hD : dictInsert l k v = D at hsome hmem ⊢
  unfold dictInsert
  rw [if_pos hsome]
  conv_rhs => rw [show D = D.map id from (List.map_id D).symm]
  apply List.map_congr_left
  intro p hp
  by_cases hpk : p.1 = k
  · rw [if_pos hpk, hmem p hp hpk]; rfl
  · rw [if_neg hpk]; rfl

/-- Decomposing a dict built by folding insertions over a base dict. -/
theorem alookup_foldl_dictInsert (l : List (α × β)) (d : List (α × β)) (k : α) :
    alookup (l.foldl (fun d p => dictInsert d p.1 p.2) d) k =
      (alookup (l.foldl (fun d p => dictInsert d p.1 p.2) []) k).or
        (alookup d k) := by
  induction l generalizing d with
  | nil => simp
  | cons p t ih =>
    simp only [List.foldl_cons]
    rw [ih (dictInsert d p.1 p.2), ih (dictInsert [] p.1 p.2)]
    by_cases hk : (alookup (t.foldl (fun d p => dictInsert d p.1 p.2) []) k).isSome
    · obtain ⟨w, hw⟩ := Option.isSome_iff_exists.mp hk
      rw [hw]; rfl
    · rw [Option.not_isSome_iff_eq_none] at hk
      rw [hk]
      by_cases hpk : p.1 = k
      · subst hpk
        rw [alookup_dictInsert_self, alookup_dictInsert_self]; rfl
      · rw [alookup_dictInsert_ne _ _ _ _ hpk, alookup_dictInsert_ne _ _ _ _ hpk]
        simp

/-- A fold preserves any invariant preserved by each step. -/
theorem foldl_preserves {σ γ : Type} (P : σ → Prop) (f : σ → γ → σ)
    (hstep : ∀ s a, P s → P (f s a)) :
    ∀ (l : List γ) (s : σ), P s → P (l.foldl f s) := by
  intro l
  induction l with
  | nil => intro s hs; exact hs
  | cons a t ih => intro s hs; exact ih (f s a) (hstep s a hs)

end Helpers

section SortedHelpers

variable {γ : Type} [Inhabited γ] {r : γ → γ → Prop}

theorem getLast!_singleton (x : γ) : ([x] : List γ).getLast! = x := by
  rw [List.getLast!_cons, List.getLastD_nil]

theorem getLast!_cons_cons (x y : γ) (t : List γ) :
    (x :: y :: t).getLast! = (y :: t).getLast! := by
  rw [List.getLast!_cons, List.getLast!_cons, List.getLastD_cons]

theorem getLast!_mem : ∀ {l : List γ}, l ≠ [] → l.getLast! ∈ l := by
  intro l
  induction l with
  | nil => intro h; exact absurd rfl h
  | cons x t ih =>
    intro _
    cases t with
    | nil => rw [getLast!_singleton]; exact List.mem_singleton_self x
    | cons y t2 =>
      rw [getLast!_cons_cons]
      exact List.mem_cons_of_mem x (ih (by simp))

theorem sorted_rel_getLast! (hrefl : ∀ x : γ, r x x) :
    ∀ {l : List γ}, List.Sorted r l → ∀ a ∈ l, r a l.getLast! := by
  intro l
  induction l with
  | nil => intro _ a ha; simp at ha
  | cons x t ih =>
    intro hs a ha
    cases t with
    | nil =>
      rcases List.mem_cons.mp ha with h | h
      · subst h; rw [getLast!_singleton]; exact hrefl a
      · simp at h
    | cons y t2 =>
      rw [getLast!_cons_cons]
      rcases List.mem_cons.mp ha with h | h
      · subst h
        have hx : ∀ b ∈ y :: t2, r a b := (List.sorted_cons.mp hs).1
        exact hx _ (getLast!_mem (by simp))
      · exact ih (List.sorted_cons.mp hs).2 a h

theorem sorted_head!_rel (hrefl : ∀ x : γ, r x x) :
    ∀ {l : List γ}, List.Sorted r l → ∀ a ∈ l, r l.head! a := by
  intro l
  cases l with
  | nil => intro _ a ha; simp at ha
  | cons x t =>
    intro hs a ha
    rcases List.mem_cons.mp ha with h | h
    · subst h; simp [hrefl]
    · simpa using (List.sorted_cons.mp hs).1 a h

end SortedHelpers

section ColExtrema

theorem foldl_max_init_le (t : List Rat) :
    ∀ u w : Rat, u ≤ w → u ≤ t.foldl max w := by
  induction t with
  | nil => intro u w h; simpa using h
  | cons z t2 ih =>
    intro u w h
    exact ih u (max w z) (le_trans h (le_max_left _ _))

theorem le_foldl_max (l : List Rat) : ∀ x a : Rat, a ∈ l → a ≤ l.foldl max x := by
  induction l with
  | nil => intro x a ha; simp at ha
  | cons y t ih =>
    intro x a ha
    simp only [List.foldl_cons]
    rcases List.mem_cons.mp ha with h | h
    · subst h; exact foldl_max_init_le t a (max x a) (le_max_right _ _)
    · exact ih (max x y) a h

theorem init_le_foldl_max (l : List Rat) (x : Rat) : x ≤ l.foldl max x := by
  induction l generalizing x with
  | nil => simp
  | cons y t ih => exact le_trans (le_max_left x y) (ih (max x y))

theorem foldl_max_mem (l : List Rat) : ∀ x : Rat, l.foldl max x ∈ x :: l := by
  induction l with
  | nil => intro x; simp
  | cons y t ih =>
    intro x
    simp only [List.foldl_cons]
    rcases List.mem_cons.mp (ih (max x y)) with h | h
    · rcases max_choice x y with hm | hm
      · rw [h, hm]; simp
      · rw [h, hm]; simp
    · exact List.mem_cons_of_mem x (List.mem_cons_of_mem y h)

theorem colMax_eq {l : List Rat} {v : Rat} (hv : v ∈ l)
    (hub : ∀ x ∈ l, x ≤ v) : colMax l = v := by
  cases l with
  | nil => simp at hv
  | cons x t =>
    show t.foldl max x = v
    apply le_antisymm
    · rcases List.mem_cons.mp (foldl_max_mem t x) with h | h
      · rw [h]; exact hub x (List.mem_cons_self x t)
      · exact hub _ (List.mem_cons_of_mem x h)
    · rcases List.mem_cons.mp hv with h | h
      · rw [h]; exact init_le_foldl_max t x
      · exact le_foldl_max t x v h

theorem foldl_min_init_ge (t : List Rat) :
    ∀ u w : Rat, w ≤ u → t.foldl min w ≤ u := by
  induction t with
  | nil => intro u w h; simpa using h
  | cons z t2 ih =>
    intro u w h
    exact ih u (min w z) (le_trans (min_le_left _ _) h)

theorem foldl_min_le (l : List Rat) : ∀ x a : Rat, a ∈ l → l.foldl min x ≤ a := by
  induction l with
  | nil => intro x a ha; simp at ha
  | cons y t ih =>
    intro x a ha
    simp only [List.foldl_cons]
    rcases List.mem_cons.mp ha with h | h
    · subst h; exact foldl_min_init_ge t a (min x a) (min_le_right _ _)
    · exact ih (min x y) a h

theorem foldl_min_le_init (l : List Rat) (x : Rat) : l.foldl min x ≤ x := by
  induction l generalizing x with
  | nil => simp
  | cons y t ih => exact le_trans (ih (min x y)) (min_le_left x y)

theorem foldl_min_mem (l : List Rat) : ∀ x : Rat, l.foldl min x ∈ x :: l := by
  induction l with
  | nil => intro x; simp
  | cons y t ih =>
    intro x
    simp only [List.foldl_cons]
    rcases List.mem_cons.mp (ih (min x y)) with h | h
    · rcases min_choice x y with hm | hm
      · rw [h, hm]; simp
      · rw [h, hm]; simp
    · exact List.mem_cons_of_mem x (List.mem_cons_of_mem y h)

theorem colMin_eq {l : List Rat} {v : Rat} (hv : v ∈ l)
    (hlb : ∀ x ∈ l, v ≤ x) : colMin l = v := by
  cases l with
  | nil => simp at hv
  | cons x t =>
    show t.foldl min x = v
    apply le_antisymm
    · rcases List.mem_cons.mp hv with h | h
      · rw [h]; exact foldl_min_le_init t x
      · exact foldl_min_le t x v h
    · rcases List.mem_cons.mp (foldl_min_mem t x) with h | h
      · rw [h]; exact hlb x (List.mem_cons_self x t)
      · exact hlb _ (List.mem_cons_of_mem x h)

end ColExtrema

/-! ### Concrete fixtures used by witnesses and counterexamples -/

/-- A valid half-hourly slot: 2025-02-08 01:00:00. -/
def tsA : DateTime := ⟨2025, 2, 8, 1, 0, 0, 0⟩

/-- A misaligned instant: 2025-02-08 01:15:00. -/
def tsBad : DateTime := ⟨2025, 2, 8, 1, 15, 0, 0⟩

def acctEmpty : ElectricityAccount :=
  ⟨"111-111-111", "Alice", "Street 1", [], []⟩

def emsOff : ElectricityManagementSystem := ⟨[("111-111-111", acctEmpty)], false⟩

def emsOn : ElectricityManagementSystem := ⟨[("111-111-111", acctEmpty)], true⟩

/-! ### Claim C6 — order of the ingestion prechecks -/

/-- Claim C6 counterexample: with ingestion suspended and an unregistered
meter id, `record_meter_reading` reports the suspended-system error, not
the unknown-device error the claim predicts (the source checks the gate
at line 190 before the registry at line 196). -/
theorem record_precheck_order_cx :
    record_meter_reading emsOff "999-999-999" tsA 100 =
      .error .systemShutdown ∧
    record_meter_reading emsOff "999-999-999" tsA 100 ≠
      .error .meterNotFound := by
  constructor
  · rfl
  · intro h
    rw [show record_meter_reading emsOff "999-999-999" tsA 100 =
      .error .systemShutdown from rfl] at h
    exact absurd (Except.error.inj h) (by decide)

/-- Claim C6 (amended): the ingestion preconditions are checked with the
first failure winning, but in the order (1) system accepting, else the
suspended error; (2) device registered, else the unknown-device error;
(3) timestamp on a half-hour slot with zero seconds, else the
invalid-timestamp error.  In particular an unregistered device while
suspended yields the suspended error. -/
theorem record_precheck_order (ems : ElectricityManagementSystem)
    (meter_id : String) (ts : DateTime) (v : Rat) :
    (ems.is_receiving_data = false →
      record_meter_reading ems meter_id ts v = .error .systemShutdown) ∧
    (ems.is_receiving_data = true → alookup ems.accounts meter_id = none →
      record_meter_reading ems meter_id ts v = .error .meterNotFound) ∧
    (ems.is_receiving_data = true →
      (alookup ems.accounts meter_id).isSome → ¬ validSlot ts →
      record_meter_reading ems meter_id ts v = .error .invalidTimestamp) := by
  refine ⟨?_, ?_, ?_⟩
  · intro h
    simp [record_meter_reading, h]
  · intro h1 h2
    simp [record_meter_reading, h1, h2]
  · intro h1 h2 h3
    obtain ⟨a, ha⟩ := Option.isSome_iff_exists.mp h2
    simp [record_meter_reading, h1, ha, h3]

/-- Witness for C6: the three precheck outcomes at concrete inputs. -/
theorem record_precheck_order_witness :
    record_meter_reading emsOff "999-999-999" tsA 1 = .error .systemShutdown ∧
    record_meter_reading emsOn "999-999-999" tsA 1 = .error .meterNotFound ∧
    record_meter_reading emsOn "111-111-111" tsBad 1 =
      .error .invalidTimestamp :=
  ⟨(record_precheck_order emsOff "999-999-999" tsA 1).1 rfl,
   (record_precheck_order emsOn "999-999-999" tsA 1).2.1 rfl rfl,
   (record_precheck_order emsOn "111-111-111" tsBad 1).2.2 rfl (by decide)
     (by decide)⟩

/-! ### Claim C8 — normalisation of `now` -/

/-- Claim C8 is refuted by the source at a single input class: an instant
whose minute component is exactly 30 is moved to minute 0, not kept at
minute 30, because line 239 tests `now.minute > 30` strictly.  This
contradicts the code comment at line 238 (adjust to the nearest valid
time point — 12:30:15 should floor to 12:30:00) and the spec, so it is a
code bug.  The theorem evaluates the embedded code at the failing input
and also records the behaviour on the other minute classes. -/
theorem adjust_now_half_hour_bug :
    adjust_now ⟨2025, 2, 8, 12, 30, 15, 123456⟩ = ⟨2025, 2, 8, 12, 0, 0, 0⟩ ∧
    (adjust_now ⟨2025, 2, 8, 12, 30, 15, 123456⟩).minute ≠ 30 ∧
    adjust_now ⟨2025, 2, 8, 12, 31, 15, 123456⟩ = ⟨2025, 2, 8, 12, 30, 0, 0⟩ ∧
    adjust_now ⟨2025, 2, 8, 12, 29, 15, 123456⟩ = ⟨2025, 2, 8, 12, 0, 0, 0⟩ ∧
    adjust_now ⟨2025, 2, 8, 12, 0, 15, 123456⟩ = ⟨2025, 2, 8, 12, 0, 0, 0⟩ := by
  decide

/-! ### Claim C9 — frame condition of a successful ingestion -/

/-- Claim C9: a successful `record_meter_reading` call returns `True` and
its only state change is binding the given timestamp to the given reading
in that device's reading dict — silently replacing any previous value at
that exact timestamp, with no validation of the new value; readings at all
other timestamps, all other accounts, the account registry and the
receiving-data flag are unchanged. -/
theorem record_meter_reading_frame (ems : ElectricityManagementSystem)
    (m : String) (ts : DateTime) (v : Rat) (acct : ElectricityAccount)
    (h1 : ems.is_receiving_data = true)
    (h2 : alookup ems.accounts m = some acct)
    (h3 : validSlot ts) :
    ∃ ems2, record_meter_reading ems m ts v = .ok (true, ems2) ∧
      ems2.is_receiving_data = ems.is_receiving_data ∧
      ems2.accounts.map Prod.fst = ems.accounts.map Prod.fst ∧
      (∀ m2, m2 ≠ m → alookup ems2.accounts m2 = alookup ems.accounts m2) ∧
      ∃ acct2, alookup ems2.accounts m = some acct2 ∧
        acct2.meter_id = acct.meter_id ∧
        acct2.owner_name = acct.owner_name ∧
        acct2.address = acct.address ∧
        acct2.family_members = acct.family_members ∧
        alookup acct2.meter_readings ts = some v ∧
        (∀ ts2, ts2 ≠ ts →
          alookup acct2.meter_readings ts2 = alookup acct.meter_readings ts2) := by
  refine ⟨{ ems with accounts := ems.accounts.map (fun p =>
    if p.1 = m then (p.1, updateReadings ts v p.2) else p) }, ?_, rfl, ?_, ?_, ?_⟩
  · simp [record_meter_reading, h1, h2, h3]
  · rw [List.map_map]
    apply List.map_congr_left
    intro p _
    by_cases hp : p.1 = m <;> simp [hp]
  · intro m2 hne
    rw [alookup_map_modify, if_neg hne]
  · refine ⟨updateReadings ts v acct, ?_, rfl, rfl, rfl, rfl, ?_, ?_⟩
    · rw [alookup_map_modify, if_pos rfl, h2]
      rfl
    · exact alookup_dictInsert_self _ _ _
    · intro ts2 hne
      exact alookup_dictInsert_ne _ _ _ _ (Ne.symm hne)

/-- Witness for C9 at a concrete system. -/
theorem record_meter_reading_frame_witness :
    ∃ ems2, record_meter_reading emsOn "111-111-111" tsA 7 = .ok (true, ems2) ∧
      ems2.is_receiving_data = emsOn.is_receiving_data ∧
      ems2.accounts.map Prod.fst = emsOn.accounts.map Prod.fst ∧
      (∀ m2, m2 ≠ "111-111-111" →
        alookup ems2.accounts m2 = alookup emsOn.accounts m2) ∧
      ∃ acct2, alookup ems2.accounts "111-111-111" = some acct2 ∧
        acct2.meter_id = acctEmpty.meter_id ∧
        acct2.owner_name = acctEmpty.owner_name ∧
        acct2.address = acctEmpty.address ∧
        acct2.family_members = acctEmpty.family_members ∧
        alookup acct2.meter_readings tsA = some 7 ∧
        (∀ ts2, ts2 ≠ tsA →
          alookup acct2.meter_readings ts2 =
            alookup acctEmpty.meter_readings ts2) :=
  record_meter_reading_frame emsOn "111-111-111" tsA 7 acctEmpty rfl
    (by decide) (by decide)

/-! ### Claim C1 — no monotonicity check at ingestion -/

/-- Half-hour slots on 2025-02-08 used by the C1 scenario. -/
def t0C1 : DateTime := ⟨2025, 2, 8, 0, 0, 0, 0⟩

def t1C1 : DateTime := ⟨2025, 2, 8, 0, 30, 0, 0⟩

def acctC1 : ElectricityAccount :=
  ⟨"M1", "Bob", "Street 2", [], [(t0C1, 100)]⟩

def emsC1 : ElectricityManagementSystem := ⟨[("M1", acctC1)], true⟩

def acctC1b : ElectricityAccount :=
  ⟨"M1", "Bob", "Street 2", [], [(t0C1, 100), (t1C1, 50)]⟩

def emsC1b : ElectricityManagementSystem := ⟨[("M1", acctC1b)], true⟩

/-- Claim C1 counterexample: the ledger holds 100 at 00:00; ingesting 50 at
00:30 — strictly smaller than the maximum of all earlier-timestamped
readings — is accepted and stored, and the ledger changes.  There is no
`NonMonotonicReading` rejection anywhere in `record_meter_reading`
(APIs.py lines 172-211 perform only the gate, registry and timestamp
checks). -/
theorem record_no_monotonicity_check_cx :
    dtlt t0C1 t1C1 ∧ (50 : Rat) < 100 ∧
    record_meter_reading emsC1 "M1" t1C1 50 = .ok (true, emsC1b) ∧
    emsC1b ≠ emsC1 := by
  refine ⟨by decide, by norm_num, ?_, by decide⟩
  rfl

/-- Claim C1 (amended): ingestion performs no monotonicity validation.
Whenever the gate, registry and timestamp checks pass, the call succeeds
and stores the new reading even when the ledger already contains an
earlier-timestamped reading with a strictly greater value. -/
theorem record_accepts_nonmonotonic_reading
    (ems : ElectricityManagementSystem) (m : String) (ts : DateTime) (v : Rat)
    (acct : ElectricityAccount) (t0 : DateTime) (v0 : Rat)
    (h1 : ems.is_receiving_data = true)
    (h2 : alookup ems.accounts m = some acct)
    (h3 : validSlot ts)
    (h4 : (t0, v0) ∈ acct.meter_readings)
    (h5 : dtlt t0 ts)
    (h6 : v < v0) :
    ∃ ems2, record_meter_reading ems m ts v = .ok (true, ems2) ∧
      ∃ acct2, alookup ems2.accounts m = some acct2 ∧
        alookup acct2.meter_readings ts = some v := by
  refine ⟨{ ems with accounts := ems.accounts.map (fun p =>
    if p.1 = m then (p.1, updateReadings ts v p.2) else p) }, ?_, ?_⟩
  · simp [record_meter_reading, h1, h2, h3]
  · refine ⟨updateReadings ts v acct, ?_, ?_⟩
    · rw [alookup_map_modify, if_pos rfl, h2]
      rfl
    · exact alookup_dictInsert_self _ _ _

/-- Witness for the amended C1 at the concrete scenario. -/
theorem record_accepts_nonmonotonic_reading_witness :
    ∃ ems2, record_meter_reading emsC1 "M1" t1C1 50 = .ok (true, ems2) ∧
      ∃ acct2, alookup ems2.accounts "M1" = some acct2 ∧
        alookup acct2.meter_readings t1C1 = some 50 :=
  record_accepts_nonmonotonic_reading emsC1 "M1" t1C1 50 acctC1 t0C1 100
    rfl (by decide) (by decide) (by decide) (by decide) (by norm_num)

/-! ### Claim C3 — the explicit-window consumption query -/

/-- Claim C3: the consumption query over `[start, end]` considers exactly
the stored readings with `start <= ts <= end` (closed interval); none of
them gives the no-readings error, exactly one gives the
insufficient-readings error, and otherwise the result is the value at the
largest kept timestamp minus the value at the smallest kept timestamp. -/
theorem calculate_consumption_spec (a : ElectricityAccount)
    (s e : DateTime)
    (hnd : (a.meter_readings.map Prod.fst).Nodup)
    (hwf : ∀ p ∈ a.meter_readings, p.1.WF) :
    (∀ p : DateTime × Rat,
      p ∈ relevantReadings a s e ↔
        p ∈ a.meter_readings ∧ dtle s p.1 ∧ dtle p.1 e) ∧
    (relevantReadings a s e = [] →
      a.calculate_consumption s e = .error .noReadings) ∧
    ((relevantReadings a s e).length = 1 →
      a.calculate_consumption s e = .error .insufficientReadings) ∧
    (∀ (tmax : DateTime) (vmax : Rat) (tmin : DateTime) (vmin : Rat),
      (tmax, vmax) ∈ relevantReadings a s e →
      (tmin, vmin) ∈ relevantReadings a s e →
      (∀ p ∈ relevantReadings a s e, dtle p.1 tmax) →
      (∀ p ∈ relevantReadings a s e, dtle tmin p.1) →
      2 ≤ (relevantReadings a s e).length →
      a.calculate_consumption s e = .ok (vmax - vmin)) := by
  have hRsub : List.Sublist ((relevantReadings a s e).map Prod.fst)
      (a.meter_readings.map Prod.fst) :=
    List.Sublist.map Prod.fst (List.filter_sublist a.meter_readings)
  have hRnodup : ((relevantReadings a s e).map Prod.fst).Nodup :=
    hnd.sublist hRsub
  have hwfR : ∀ p ∈ relevantReadings a s e, p.1.WF := fun p hp =>
    hwf p (List.mem_of_mem_filter hp)
  refine ⟨?_, ?_, ?_, ?_⟩
  · intro p
    simp [relevantReadings, List.mem_filter]
  · intro h
    simp [ElectricityAccount.calculate_consumption, h]
  · intro h
    have hne : ¬ (relevantReadings a s e).isEmpty = true := by
      intro hh
      rw [List.isEmpty_iff] at hh
      rw [hh] at h
      simp at h
    have hlen : (sortedTimestamps a s e).length < 2 := by
      rw [sortedTimestamps, List.length_insertionSort, List.length_map, h]
      omega
    simp [ElectricityAccount.calculate_consumption, hne, hlen]
  · intro tmax vmax tmin vmin hmax hmin hub hlb hlen
    have hne : ¬ (relevantReadings a s e).isEmpty = true := by
      intro hh
      rw [List.isEmpty_iff] at hh
      rw [hh] at hlen
      simp at hlen
    have hlen2 : ¬ (sortedTimestamps a s e).length < 2 := by
      rw [sortedTimestamps, List.length_insertionSort, List.length_map]
      omega
    have hperm : List.Perm (sortedTimestamps a s e)
        ((relevantReadings a s e).map Prod.fst) :=
      List.perm_insertionSort dtle _
    have hsorted : List.Sorted dtle (sortedTimestamps a s e) :=
      List.sorted_insertionSort dtle _
    have htsne : sortedTimestamps a s e ≠ [] := by
      intro hh
      have := hperm.length_eq
      rw [hh, List.length_map] at this
      simp at this
      omega
    have hlast_mem : (sortedTimestamps a s e).getLast! ∈
        (relevantReadings a s e).map Prod.fst :=
      hperm.mem_iff.mp (getLast!_mem htsne)
    have hhead_mem : (sortedTimestamps a s e).head! ∈
        (relevantReadings a s e).map Prod.fst := by
      apply hperm.mem_iff.mp
      cases hl : sortedTimestamps a s e with
      | nil => exact absurd hl htsne
      | cons x t => simp
    obtain ⟨pmax, hpmaxR, hpmax1⟩ := List.mem_map.mp hlast_mem
    obtain ⟨pmin, hpminR, hpmin1⟩ := List.mem_map.mp hhead_mem
    have htmax_mem : tmax ∈ sortedTimestamps a s e :=
      hperm.mem_iff.mpr (List.mem_map.mpr ⟨(tmax, vmax), hmax, rfl⟩)
    have htmin_mem : tmin ∈ sortedTimestamps a s e :=
      hperm.mem_iff.mpr (List.mem_map.mpr ⟨(tmin, vmin), hmin, rfl⟩)
    have heqmax : (sortedTimestamps a s e).getLast! = tmax := by
      apply dtle_antisymm (hpmax1 ▸ hwfR pmax hpmaxR) (hwfR (tmax, vmax) hmax)
      · exact hpmax1 ▸ hub pmax hpmaxR
      · exact sorted_rel_getLast! dtle_refl hsorted tmax htmax_mem
    have heqmin : (sortedTimestamps a s e).head! = tmin := by
      apply dtle_antisymm (hpmin1 ▸ hwfR pmin hpminR) (hwfR (tmin, vmin) hmin)
      · exact sorted_head!_rel dtle_refl hsorted tmin htmin_mem
      · exact hpmin1 ▸ hlb pmin hpminR
    have hlookmax : alookup (relevantReadings a s e) tmax = some vmax :=
      alookup_eq_some_of_mem_nodup hmax hRnodup
    have hlookmin : alookup (relevantReadings a s e) tmin = some vmin :=
      alookup_eq_some_of_mem_nodup hmin hRnodup
    simp only [ElectricityAccount.calculate_consumption, hne, if_false,
      hlen2, heqmax, heqmin, hlookmax, hlookmin, Option.getD_some]
    rfl

/-- Witness for C3: the spec scenario — readings 100.0 at 00:00 and 101.5
at 00:30, window [00:00, 00:30], consumption 1.5. -/
def acctC3 : ElectricityAccount :=
  ⟨"M1", "Carol", "Street 3", [], [(t0C1, 100), (t1C1, 101.5)]⟩

theorem calculate_consumption_spec_witness :
    acctC3.calculate_consumption t0C1 t1C1 = .ok (3/2) := by
  have hR : relevantReadings acctC3 t0C1 t1C1 =
      [(t0C1, 100), (t1C1, 101.5)] := rfl
  have hmax : ((t1C1, (101.5 : Rat)) ∈ relevantReadings acctC3 t0C1 t1C1) := by
    rw [hR]
    exact List.mem_cons_of_mem _ (List.mem_cons_self _ _)
  have hmin : ((t0C1, (100 : Rat)) ∈ relevantReadings acctC3 t0C1 t1C1) := by
    rw [hR]
    exact List.mem_cons_self _ _
  have h := (calculate_consumption_spec acctC3 t0C1 t1C1 (by decide)
    (by decide)).2.2.2 t1C1 101.5 t0C1 100 hmax hmin (by decide) (by decide)
    (by decide)
  rw [h]
  have hval : (101.5 : Rat) - 100 = 3/2 := by norm_num
  rw [hval]

/-! ### Claim C10 — every restored reading sits on a half-hour slot -/

/-- Alignment invariant on the nested restore dict. -/
def AlignedMap (r : RestoredReadings) : Prop :=
  ∀ m ts v, alookup2 r m ts = some v → validSlot ts

theorem alookup2_dictInsert2 (r : RestoredReadings) (m : String)
    (ts : DateTime) (v : Rat) (m2 : String) (ts2 : DateTime) :
    alookup2 (dictInsert2 r m ts v) m2 ts2 =
      if m = m2 ∧ ts = ts2 then some v else alookup2 r m2 ts2 := by
  cases h : alookup r m with
  | none =>
    simp only [dictInsert2, h]
    by_cases hm : m = m2
    · subst hm
      simp only [alookup2, alookup_dictInsert, if_pos rfl, h]
      by_cases hts : ts = ts2
      · subst hts
        simp [alookup_dictInsert_self]
      · simp [alookup_dictInsert_ne _ _ _ _ hts, hts]
    · simp only [alookup2, alookup_dictInsert, if_neg hm]
      rw [if_neg (fun hh => hm hh.1)]
  | some d =>
    simp only [dictInsert2, h]
    by_cases hm : m = m2
    · subst hm
      simp only [alookup2, alookup_dictInsert, if_pos rfl, h]
      by_cases hts : ts = ts2
      · subst hts
        simp [alookup_dictInsert_self]
      · simp [alookup_dictInsert_ne _ _ _ _ hts, hts]
    · simp only [alookup2, alookup_dictInsert, if_neg hm]
      rw [if_neg (fun hh => hm hh.1)]

theorem validate_ok_validSlot {m : String} {ts : DateTime} {v : Rat}
    {r : RestoredReadings} (h : validate_reading m ts v r = .ok) :
    validSlot ts := by
  by_cases hs : validSlot ts
  · exact hs
  · rw [validate_reading, if_pos hs] at h
    exact absurd h (by decide)

theorem restoreStep_aligned (acc : RestoredReadings × List ConflictRecord)
    (m : String) (ts : DateTime) (v : Rat) (hal : AlignedMap acc.1) :
    AlignedMap (restoreStep acc m ts v).1 := by
  unfold restoreStep
  cases hv : validate_reading m ts v acc.1 with
  | ok =>
    intro m2 ts2 v2 h
    rw [alookup2_dictInsert2] at h
    by_cases hc : m = m2 ∧ ts = ts2
    · exact hc.2 ▸ validate_ok_validSlot hv
    · rw [if_neg hc] at h
      exact hal m2 ts2 v2 h
  | badTimestamp => exact hal
  | conflict => exact hal
  | duplicate => exact hal

theorem meterInit_aligned (r : RestoredReadings) (m : String)
    (hal : AlignedMap r) : AlignedMap (dictInsert r m []) := by
  intro m2 ts2 v2 h
  unfold alookup2 at h
  rw [alookup_dictInsert] at h
  by_cases hm : m = m2
  · rw [if_pos hm] at h
    simp at h
  · rw [if_neg hm] at h
    exact hal m2 ts2 v2 h

theorem restore_from_logs_aligned (acc : RestoredReadings × List ConflictRecord)
    (today : RestoredReadings) (hal : AlignedMap acc.1) :
    AlignedMap (restore_from_logs acc today).1 := by
  unfold restore_from_logs
  refine foldl_preserves
    (fun (x : RestoredReadings × List ConflictRecord) => AlignedMap x.1)
    _ ?_ today acc hal
  intro a p ha
  have hacc1 : AlignedMap
      (if (alookup a.1 p.1).isNone then (dictInsert a.1 p.1 [], a.2)
       else a).1 := by
    by_cases hn : (alookup a.1 p.1).isNone
    · rw [if_pos hn]
      exact meterInit_aligned a.1 p.1 ha
    · rw [if_neg hn]
      exact ha
  exact foldl_preserves
    (fun (x : RestoredReadings × List ConflictRecord) => AlignedMap x.1)
    _ (fun s q hs => restoreStep_aligned s p.1 q.1 q.2 hs) p.2 _ hacc1

/-- Claim C10: every reading in the mapping returned by
`DataRestorer.restore_data` has a timestamp whose minute component is 0 or
30 and whose second component is 0; misaligned archive-CSV rows and log
lines are never inserted (both insertion sites run `_validate_reading`,
and log lines additionally pass `_parse_log_line`, each of which rejects
misaligned timestamps). -/
theorem restore_data_aligned (csvFiles : List (List ArchiveRow))
    (logLines : List LogLine) (m : String) (ts : DateTime) (v : Rat)
    (h : alookup2 (restore_data csvFiles logLines).1 m ts = some v) :
    (ts.minute = 0 ∨ ts.minute = 30) ∧ ts.second = 0 := by
  have hstep1 : AlignedMap ((csvFiles.foldl (fun acc rows =>
      rows.foldl (fun a r => restoreStep a r.meter_id r.timestamp r.reading)
        acc) (([], []) : RestoredReadings × List ConflictRecord)).1) := by
    refine foldl_preserves
      (fun (x : RestoredReadings × List ConflictRecord) => AlignedMap x.1)
      _ ?_ csvFiles ([], []) ?_
    · intro a rows ha
      refine foldl_preserves
        (fun (x : RestoredReadings × List ConflictRecord) => AlignedMap x.1)
        _ ?_ rows a ha
      intro a2 r ha2
      exact restoreStep_aligned a2 r.meter_id r.timestamp r.reading ha2
    · intro m2 ts2 v2 hh
      simp [alookup2] at hh
  exact restore_from_logs_aligned _ (get_today_readings_from_logs logLines)
    hstep1 m ts v h

/-- Witness fixtures for C10. -/
def tC10 : DateTime := ⟨2025, 2, 7, 0, 30, 0, 0⟩

def rowC10 : ArchiveRow := ⟨"M7", tC10, 42⟩

theorem restore_data_aligned_witness :
    (tC10.minute = 0 ∨ tC10.minute = 30) ∧ tC10.second = 0 :=
  restore_data_aligned [[rowC10]] [] "M7" tC10 42 (by decide)

/-! ### Claim C5 — conflict handling during recovery replay -/

theorem parse_log_line_reading (m : String) (ts : DateTime) (v : Rat) :
    parse_log_line (.reading m ts v) =
      if validSlot ts then some (m, ts, v) else none := rfl

theorem parse_log_line_other : parse_log_line .other = none := rfl

/-- Folding further log lines that never mention `(m, ts)` leaves the
aggregated value at `(m, ts)` unchanged. -/
theorem get_today_foldl_no_key (m : String) (ts : DateTime) :
    ∀ (l2 : List LogLine) (acc : RestoredReadings),
      (∀ v2, LogLine.reading m ts v2 ∉ l2) →
      alookup2 (l2.foldl (fun r line =>
        match parse_log_line line with
        | some (m, ts, v) => dictInsert2 r m ts v
        | none => r) acc) m ts = alookup2 acc m ts := by
  intro l2
  induction l2 with
  | nil => intro acc _; rfl
  | cons line t ih =>
    intro acc hno
    have hnot : ∀ v2, LogLine.reading m ts v2 ∉ t := fun v2 h =>
      hno v2 (List.mem_cons_of_mem _ h)
    cases line with
    | other =>
      rw [List.foldl_cons]
      exact ih _ hnot
    | reading m2 ts2 v2 =>
      rw [List.foldl_cons]
      by_cases hp : validSlot ts2
      · rw [ih _ hnot]
        have hc : ¬ (m2 = m ∧ ts2 = ts) := by
          intro hh
          exact hno v2 (hh.1 ▸ hh.2 ▸ List.mem_cons_self _ _)
        have hred : alookup2 (dictInsert2 acc m2 ts2 v2) m ts =
            alookup2 acc m ts := by
          rw [alookup2_dictInsert2, if_neg hc]
        calc alookup2 (match parse_log_line (LogLine.reading m2 ts2 v2) with
              | some (m, ts, v) => dictInsert2 acc m ts v
              | none => acc) m ts
            = alookup2 (dictInsert2 acc m2 ts2 v2) m ts := by
              rw [parse_log_line_reading, if_pos hp]
          _ = alookup2 acc m ts := hred
      · have hred : (match parse_log_line (LogLine.reading m2 ts2 v2) with
              | some (m, ts, v) => dictInsert2 acc m ts v
              | none => acc) = acc := by
          rw [parse_log_line_reading, if_neg hp]
        rw [hred]
        exact ih _ hnot

/-- Claim C5 (amended): during recovery replay a conflict between a reading
already restored from the archive CSVs and a later log-derived reading for
the same (device, timestamp) keeps the first (archived) value and records
the conflict; but when both conflicting entries come from today's
operational log, `_get_today_readings_from_logs` aggregates them with a
plain dict assignment, so the LAST entry silently wins and no conflict is
recorded — the first is discarded, contrary to the claim. -/
theorem restore_conflict_resolution :
    (∀ (l1 l2 : List LogLine) (m : String) (ts : DateTime) (v : Rat),
      validSlot ts →
      (∀ v2, LogLine.reading m ts v2 ∉ l2) →
      alookup2 (get_today_readings_from_logs
        (l1 ++ LogLine.reading m ts v :: l2)) m ts = some v) ∧
    (∀ (R : RestoredReadings) (C : List ConflictRecord) (m : String)
        (ts : DateTime) (v vlog : Rat),
      alookup2 R m ts = some v →
      validSlot ts →
      |v - vlog| > 1/100 →
      restore_from_logs (R, C) [(m, [(ts, vlog)])] =
        (R, C ++ [{ meter_id := m, timestamp := ts,
                    existing := v, incoming := vlog }])) := by
  constructor
  · intro l1 l2 m ts v hs hno
    unfold get_today_readings_from_logs
    rw [List.foldl_append, List.foldl_cons,
      get_today_foldl_no_key m ts l2 _ hno]
    have hred : alookup2 (dictInsert2 (l1.foldl (fun r line =>
        match parse_log_line line with
        | some (m, ts, v) => dictInsert2 r m ts v
        | none => r) []) m ts v) m ts = some v := by
      rw [alookup2_dictInsert2, if_pos ⟨rfl, rfl⟩]
    calc alookup2 (match parse_log_line (LogLine.reading m ts v) with
          | some (m, ts, v) => dictInsert2 (l1.foldl (fun r line =>
              match parse_log_line line with
              | some (m, ts, v) => dictInsert2 r m ts v
              | none => r) []) m ts v
          | none => l1.foldl (fun r line =>
              match parse_log_line line with
              | some (m, ts, v) => dictInsert2 r m ts v
              | none => r) []) m ts
        = alookup2 (dictInsert2 (l1.foldl (fun r line =>
            match parse_log_line line with
            | some (m, ts, v) => dictInsert2 r m ts v
            | none => r) []) m ts v) m ts := by
          rw [parse_log_line_reading, if_pos hs]
      _ = some v := hred
  · intro R C m ts v vlog hex hs hd
    have hv : validate_reading m ts vlog R = .conflict := by
      unfold validate_reading
      rw [if_neg (fun hh => hh hs)]
      simp only [hex]
      rw [if_pos hd]
    have hnotnone : (alookup R m).isNone = false := by
      unfold alookup2 at hex
      cases hh : alookup R m with
      | none => rw [hh] at hex; simp at hex
      | some d => rfl
    unfold restore_from_logs
    simp only [List.foldl_cons, List.foldl_nil, hnotnone, Bool.false_eq_true,
      if_false, restoreStep, hv, hex, Option.getD_some]

/-- Fixtures for the C5 scenario: two log entries for the same
(device, timestamp) with values 100 and 200. -/
def tC5 : DateTime := ⟨2025, 2, 8, 9, 0, 0, 0⟩

def logsC5 : List LogLine :=
  [.reading "M1" tC5 100, .reading "M1" tC5 200]

/-- Claim C5 counterexample: both conflicting entries come from today's
operational log; the restored mapping holds the SECOND value (200), the
first (100) was silently discarded, and no conflict was recorded — the
claim predicts the first kept and a conflict warning. -/
theorem restore_log_conflict_cx :
    |(100 : Rat) - 200| > 1/100 ∧
    restore_data [] logsC5 = ([("M1", [(tC5, 200)])], []) := by
  constructor
  · norm_num
  · rfl

/-- Witness for the amended C5 at concrete inputs: the within-log case and
the CSV-versus-log case. -/
theorem restore_conflict_resolution_witness :
    alookup2 (get_today_readings_from_logs logsC5) "M1" tC5 = some 200 ∧
    restore_from_logs ([("M1", [(tC5, 100)])], []) [("M1", [(tC5, 200)])] =
      ([("M1", [(tC5, 100)])],
       [{ meter_id := "M1", timestamp := tC5, existing := 100,
          incoming := 200 }]) := by
  constructor
  · exact restore_conflict_resolution.1 [.reading "M1" tC5 100] [] "M1" tC5 200
      (by decide) (fun v2 h => absurd h (List.not_mem_nil _))
  · exact restore_conflict_resolution.2 [("M1", [(tC5, 100)])] [] "M1" tC5
      100 200 rfl (by decide) (by norm_num)

/-! ### Claim C7 — last-month consumption versus last-month bill -/

/-- Fixtures for C7: a non-monotonic archived series for meter M1 and a
monotone one for meter M2, both on last-month half-hour slots. -/
def tC7a : DateTime := ⟨2025, 1, 1, 0, 0, 0, 0⟩

def tC7b : DateTime := ⟨2025, 1, 1, 0, 30, 0, 0⟩

def rowsC7 : List ArchiveRow := [⟨"M1", tC7a, 100⟩, ⟨"M1", tC7b, 50⟩]

def rowsC7w : List ArchiveRow := [⟨"M2", tC7a, 10⟩, ⟨"M2", tC7b, 30⟩]

/-- Claim C7 counterexample: on a non-monotonic archived series (100 then
50), `get_consumption('last_month')` returns `max - min = 50` (APIs.py
line 268), while `get_last_month_bill` returns the time-sorted
last-minus-first `= -50` (APIs.py lines 336-342); the two disagree, so the
consumption is not computed by sorting and the two endpoints do not
coincide. -/
theorem last_month_consumption_cx :
    get_consumption_last_month rowsC7 "M1" = .ok 50 ∧
    get_last_month_bill rowsC7 "M1" = .ok ⟨100, 50, -50, tC7a, tC7b⟩ ∧
    (50 : Rat) ≠ -50 := by
  refine ⟨?_, ?_, by norm_num⟩
  · have h : get_consumption_last_month rowsC7 "M1" =
        .ok (colMax [100, 50] - colMin [100, 50]) := rfl
    rw [h]
    have hmax : colMax [(100 : Rat), 50] = 100 := max_eq_left (by norm_num)
    have hmin : colMin [(100 : Rat), 50] = 50 := min_eq_right (by norm_num)
    rw [hmax, hmin]
    have hv : (100 : Rat) - 50 = 50 := by norm_num
    rw [hv]
  · have h : get_last_month_bill rowsC7 "M1" =
        .ok ⟨100, 50, 50 - 100, tC7a, tC7b⟩ := rfl
    rw [h]
    have hv : (50 : Rat) - 100 = -50 := by norm_num
    rw [hv]

/-- Claim C7 (amended): `get_consumption(meter, 'last_month')` returns the
difference of the column extrema `max(reading) - min(reading)`, not a
time-sorted last-minus-first; `get_last_month_bill` does sort by timestamp
and take first/last.  Over the same archived monthly rows the two agree
whenever the readings are monotone non-decreasing with respect to
timestamp order (the expected cumulative-counter shape), but can differ on
non-monotonic data. -/
theorem last_month_consumption_vs_bill :
    (∀ (rows : List ArchiveRow) (m : String) (vmax vmin : Rat),
      rows.filter (fun r => decide (r.meter_id = m)) ≠ [] →
      vmax ∈ (rows.filter (fun r => decide (r.meter_id = m))).map
        ArchiveRow.reading →
      (∀ v ∈ (rows.filter (fun r => decide (r.meter_id = m))).map
        ArchiveRow.reading, v ≤ vmax) →
      vmin ∈ (rows.filter (fun r => decide (r.meter_id = m))).map
        ArchiveRow.reading →
      (∀ v ∈ (rows.filter (fun r => decide (r.meter_id = m))).map
        ArchiveRow.reading, vmin ≤ v) →
      get_consumption_last_month rows m = .ok (vmax - vmin)) ∧
    (∀ (rows : List ArchiveRow) (m : String),
      rows.filter (fun r => decide (r.meter_id = m)) ≠ [] →
      (∀ p ∈ rows.filter (fun r => decide (r.meter_id = m)),
       ∀ q ∈ rows.filter (fun r => decide (r.meter_id = m)),
        dtle p.timestamp q.timestamp → p.reading ≤ q.reading) →
      get_consumption_last_month rows m =
        (get_last_month_bill rows m).map BillDetails.consumption) := by
  constructor
  · intro rows m vmax vmin hne hmaxm hub hminm hlb
    have hmd : ¬ ((rows.filter (fun r => decide (r.meter_id = m))).isEmpty
        = true) := fun hh => hne (List.isEmpty_iff.mp hh)
    simp only [get_consumption_last_month, hmd, if_false]
    rw [colMax_eq hmaxm hub, colMin_eq hminm hlb]
    rfl
  · intro rows m hne hmono
    have hmd : ¬ ((rows.filter (fun r => decide (r.meter_id = m))).isEmpty
        = true) := fun hh => hne (List.isEmpty_iff.mp hh)
    have hperm : List.Perm
        (List.insertionSort rowLe (rows.filter (fun r => decide (r.meter_id = m))))
        (rows.filter (fun r => decide (r.meter_id = m))) :=
      List.perm_insertionSort rowLe _
    have hsorted : List.Sorted rowLe
        (List.insertionSort rowLe (rows.filter (fun r => decide (r.meter_id = m)))) :=
      List.sorted_insertionSort rowLe _
    have hSne : List.insertionSort rowLe
        (rows.filter (fun r => decide (r.meter_id = m))) ≠ [] := by
      intro hh
      rw [hh] at hperm
      exact hne hperm.symm.eq_nil
    have hlast_mem : (List.insertionSort rowLe
        (rows.filter (fun r => decide (r.meter_id = m)))).getLast! ∈
        rows.filter (fun r => decide (r.meter_id = m)) :=
      hperm.mem_iff.mp (getLast!_mem hSne)
    have hhead_mem : (List.insertionSort rowLe
        (rows.filter (fun r => decide (r.meter_id = m)))).head! ∈
        rows.filter (fun r => decide (r.meter_id = m)) := by
      apply hperm.mem_iff.mp
      cases hl : List.insertionSort rowLe
        (rows.filter (fun r => decide (r.meter_id = m))) with
      | nil => exact absurd hl hSne
      | cons x t => simp
    have hub : ∀ v ∈ (rows.filter (fun r => decide (r.meter_id = m))).map
        ArchiveRow.reading, v ≤ (List.insertionSort rowLe
          (rows.filter (fun r => decide (r.meter_id = m)))).getLast!.reading := by
      intro v hv
      obtain ⟨p, hp, hpv⟩ := List.mem_map.mp hv
      have hpS : p ∈ List.insertionSort rowLe
          (rows.filter (fun r => decide (r.meter_id = m))) :=
        hperm.mem_iff.mpr hp
      have := sorted_rel_getLast! rowLe_refl hsorted p hpS
      exact hpv ▸ hmono p hp _ hlast_mem this
    have hlb : ∀ v ∈ (rows.filter (fun r => decide (r.meter_id = m))).map
        ArchiveRow.reading, (List.insertionSort rowLe
          (rows.filter (fun r => decide (r.meter_id = m)))).head!.reading ≤ v := by
      intro v hv
      obtain ⟨p, hp, hpv⟩ := List.mem_map.mp hv
      have hpS : p ∈ List.insertionSort rowLe
          (rows.filter (fun r => decide (r.meter_id = m))) :=
        hperm.mem_iff.mpr hp
      have := sorted_head!_rel rowLe_refl hsorted p hpS
      exact hpv ▸ hmono _ hhead_mem p hp this
    have hmax : colMax ((rows.filter (fun r => decide (r.meter_id = m))).map
        ArchiveRow.reading) = (List.insertionSort rowLe
          (rows.filter (fun r => decide (r.meter_id = m)))).getLast!.reading :=
      colMax_eq (List.mem_map.mpr ⟨_, hlast_mem, rfl⟩) hub
    have hmin : colMin ((rows.filter (fun r => decide (r.meter_id = m))).map
        ArchiveRow.reading) = (List.insertionSort rowLe
          (rows.filter (fun r => decide (r.meter_id = m)))).head!.reading :=
      colMin_eq (List.mem_map.mpr ⟨_, hhead_mem, rfl⟩) hlb
    simp only [get_consumption_last_month, get_last_month_bill, hmd, if_false,
      Except.map, hmax, hmin]
    rfl

/-- Witness for the amended C7 at a concrete monotone series. -/
theorem last_month_consumption_vs_bill_witness :
    get_consumption_last_month rowsC7w "M2" = .ok (30 - 10) ∧
    get_consumption_last_month rowsC7w "M2" =
      (get_last_month_bill rowsC7w "M2").map BillDetails.consumption := by
  constructor
  · exact last_month_consumption_vs_bill.1 rowsC7w "M2" 30 10 (by decide)
      (by decide) (by decide) (by decide) (by decide)
  · exact last_month_consumption_vs_bill.2 rowsC7w "M2" (by decide) (by decide)

/-! ### Claim C4 — archival merge semantics and idempotence -/

theorem filter_not_filter (win : DateTime → Bool) (l : List (DateTime × Rat)) :
    (l.filter (fun q => ! win q.1)).filter (fun q => win q.1) = [] := by
  rw [List.filter_filter]
  simp

theorem archRows_evicted_true (win : DateTime → Bool)
    (accounts : List (String × ElectricityAccount)) :
    archRows win (accounts.map (archEvict win true)) = [] := by
  induction accounts with
  | nil => rfl
  | cons p t ih =>
    rw [List.map_cons]
    unfold archRows
    rw [List.flatMap_cons]
    unfold archRows at ih
    rw [ih]
    have hhead : (archEvict win true p).2.meter_readings.filter
        (fun q => win q.1) = [] := by
      unfold archEvict
      by_cases h : (p.2.meter_readings.filter (fun q => win q.1)).isEmpty
      · rw [if_pos h]
        exact List.isEmpty_iff.mp h
      · rw [if_neg h, if_pos rfl]
        exact filter_not_filter win p.2.meter_readings
    rw [hhead]
    rfl

theorem archEvict_false (win : DateTime → Bool)
    (p : String × ElectricityAccount) : archEvict win false p = p := by
  unfold archEvict
  by_cases h : (p.2.meter_readings.filter (fun q => win q.1)).isEmpty
  · rw [if_pos h]
  · rw [if_neg h]
    rfl

theorem map_archEvict_false (win : DateTime → Bool)
    (accounts : List (String × ElectricityAccount)) :
    accounts.map (archEvict win false) = accounts := by
  have h : accounts.map (archEvict win false) = accounts.map id :=
    List.map_congr_left (fun p _ => archEvict_false win p)
  rw [h, List.map_id]

theorem archive_readings_accounts (sys : ArchSystem) (period : String)
    (clear_memory writeOk : Bool) (now : DateTime) :
    (archive_readings sys period clear_memory writeOk now).2.ems.accounts =
      sys.ems.accounts.map (archEvict (archWin period now) clear_memory) := by
  unfold archive_readings
  by_cases h1 : (archRows (archWin period now) sys.ems.accounts).isEmpty
  · rw [if_pos h1]
    rfl
  · rw [if_neg h1]
    by_cases h2 : writeOk
    · rw [if_pos h2]
      rfl
    · rw [if_neg h2]
      rfl

theorem archive_readings_files_of_empty (sys : ArchSystem) (period : String)
    (clear_memory writeOk : Bool) (now : DateTime)
    (h : archRows (archWin period now) sys.ems.accounts = []) :
    (archive_readings sys period clear_memory writeOk now).2.files =
      sys.files := by
  unfold archive_readings
  rw [h]
  rfl

theorem archive_readings_files_of_write (sys : ArchSystem) (period : String)
    (clear_memory : Bool) (now : DateTime)
    (h : ¬ (archRows (archWin period now) sys.ems.accounts).isEmpty = true) :
    (archive_readings sys period clear_memory true now).2.files =
      dictInsert sys.files (archiveWindow period now).2.2
        (archRows (archWin period now) sys.ems.accounts) := by
  unfold archive_readings
  rw [if_neg h, if_pos rfl]

/-- Rewriting a dict sorted-by-key leaves every lookup unchanged. -/
theorem alookup_writeback (merged : List (DateTime × Rat)) (t : DateTime) :
    alookup ((List.insertionSort dtle (merged.map Prod.fst)).map
      (fun k => (k, (alookup merged k).getD 0))) t = alookup merged t := by
  rw [alookup_map_pair]
  by_cases hmem : t ∈ List.insertionSort dtle (merged.map Prod.fst)
  · rw [if_pos hmem]
    have hmem2 : t ∈ merged.map Prod.fst :=
      (List.perm_insertionSort dtle _).mem_iff.mp hmem
    have hsome : (alookup merged t).isSome :=
      (alookup_isSome_iff_mem merged t).mpr hmem2
    obtain ⟨w, hw⟩ := Option.isSome_iff_exists.mp hsome
    rw [hw]
    rfl
  · rw [if_neg hmem]
    have hmem2 : ¬ t ∈ merged.map Prod.fst := fun hh =>
      hmem ((List.perm_insertionSort dtle _).mem_iff.mpr hh)
    cases hh : alookup merged t with
    | none => rfl
    | some w =>
      exact absurd ((alookup_isSome_iff_mem merged t).mp (by rw [hh]; rfl))
        hmem2

/-- Claim C4 (amended): the per-meter daily CSV writer
`_save_readings_to_csv` is additive — it merges by timestamp (a new
reading overwrites an existing one at the same timestamp, all other
existing readings are preserved) and rewrites the file in full, sorted by
timestamp — and running `archive_readings` twice in a row with no new
ingestion between the runs leaves the Archive files identical after the
second run.  However `ElectricityManagementSystem.archive_readings`
itself (APIs.py line 426) is NOT additive: `df.to_csv` overwrites the
partition with only the rows collected from memory, discarding any
existing rows at other timestamps (see the counterexample). -/
theorem archive_merge_and_idempotence :
    (∀ (file : Option (List (DateTime × Rat)))
       (readings : List (DateTime × Rat)),
      readings ≠ [] →
      ∃ out, save_readings_to_csv file readings = some out ∧
        List.Sorted dtle (out.map Prod.fst) ∧
        (∀ t, alookup out t =
          (alookup (readCsvDict readings) t).or
            (alookup (readCsvDict (file.getD [])) t))) ∧
    (∀ (sys : ArchSystem) (period : String) (clear_memory : Bool)
       (now : DateTime),
      (archive_readings (archive_readings sys period clear_memory true now).2
        period clear_memory true now).2.files =
        (archive_readings sys period clear_memory true now).2.files) := by
  constructor
  · intro file readings hne
    have hne2 : readings.isEmpty = false := by
      cases readings with
      | nil => exact absurd rfl hne
      | cons x t => rfl
    cases file with
    | none =>
      have hsave : save_readings_to_csv none readings = some
          ((List.insertionSort dtle ((readings.foldl
            (fun d p => dictInsert d p.1 p.2) []).map Prod.fst)).map
            (fun k => (k, (alookup (readings.foldl
              (fun d p => dictInsert d p.1 p.2) []) k).getD 0))) := by
        unfold save_readings_to_csv
        rw [hne2]
        rfl
      refine ⟨_, hsave, ?_, ?_⟩
      · rw [List.map_map]
        have hmm : (Prod.fst ∘ fun k : DateTime =>
            (k, (alookup (readings.foldl (fun d p => dictInsert d p.1 p.2)
              []) k).getD 0)) = id := rfl
        rw [hmm, List.map_id]
        exact List.sorted_insertionSort dtle _
      · intro t
        rw [alookup_writeback, alookup_foldl_dictInsert]
        rfl
    | some rows =>
      have hsave : save_readings_to_csv (some rows) readings = some
          ((List.insertionSort dtle ((readings.foldl
            (fun d p => dictInsert d p.1 p.2) (readCsvDict rows)).map
              Prod.fst)).map
            (fun k => (k, (alookup (readings.foldl
              (fun d p => dictInsert d p.1 p.2) (readCsvDict rows))
                k).getD 0))) := by
        unfold save_readings_to_csv
        rw [hne2]
        rfl
      refine ⟨_, hsave, ?_, ?_⟩
      · rw [List.map_map]
        have hmm : (Prod.fst ∘ fun k : DateTime =>
            (k, (alookup (readings.foldl (fun d p => dictInsert d p.1 p.2)
              (readCsvDict rows)) k).getD 0)) = id := rfl
        rw [hmm, List.map_id]
        exact List.sorted_insertionSort dtle _
      · intro t
        rw [alookup_writeback, alookup_foldl_dictInsert]
        rfl
  · intro sys period clear_memory now
    cases clear_memory with
    | true =>
      have hrows2 : archRows (archWin period now)
          (archive_readings sys period true true now).2.ems.accounts = [] := by
        rw [archive_readings_accounts]
        exact archRows_evicted_true _ _
      exact archive_readings_files_of_empty _ _ _ _ _ hrows2
    | false =>
      have hacc : (archive_readings sys period false true now).2.ems.accounts
          = sys.ems.accounts := by
        rw [archive_readings_accounts, map_archEvict_false]
      by_cases h1 : (archRows (archWin period now) sys.ems.accounts).isEmpty
      · refine archive_readings_files_of_empty _ _ _ _ _ ?_
        rw [hacc]
        exact List.isEmpty_iff.mp h1
      · rw [archive_readings_files_of_write _ _ _ _ (by rw [hacc]; exact h1),
          hacc, archive_readings_files_of_write _ _ _ _ h1]
        exact dictInsert_idem _ _ _

/-- Fixtures for the C4 counterexample and the C2 scenario: a daily
archive run on 2025-02-08 over yesterday's window
[2025-02-07 00:00, 2025-02-08 00:00). -/
def nowC4 : DateTime := ⟨2025, 2, 8, 1, 0, 0, 0⟩

def tOldC4 : DateTime := ⟨2025, 2, 7, 0, 0, 0, 0⟩

def tNewC4 : DateTime := ⟨2025, 2, 7, 0, 30, 0, 0⟩

def oldRowC4 : ArchiveRow := ⟨"M1", tOldC4, 5⟩

def newRowC4 : ArchiveRow := ⟨"M1", tNewC4, 101⟩

def acctC4 : ElectricityAccount :=
  ⟨"M1", "Dan", "Street 4", [], [(tNewC4, 101)]⟩

def sysC4 : ArchSystem :=
  { ems := ⟨[("M1", acctC4)], true⟩,
    files := [("daily_2025-02-07.csv", [oldRowC4])] }

/-- Claim C4 counterexample: the partition `daily_2025-02-07.csv` already
holds a reading at 00:00 that is no longer in memory; running
`archive_readings('daily')` overwrites the file with only the in-memory
row at 00:30, so the existing reading at the other timestamp is NOT
preserved — `df.to_csv` (APIs.py line 426) does not merge. -/
theorem archive_overwrite_cx :
    alookup sysC4.files "daily_2025-02-07.csv" = some [oldRowC4] ∧
    (archive_readings sysC4 "daily" false true nowC4).2.files =
      [("daily_2025-02-07.csv", [newRowC4])] := by
  constructor
  · rfl
  · rfl

/-- Witness for the amended C4: the daily CSV writer merging a new reading
into an existing partition, and a concrete double archive run. -/
theorem archive_merge_and_idempotence_witness :
    (∃ out, save_readings_to_csv (some [(tOldC4, 5)]) [(tNewC4, 7)] =
        some out ∧
      List.Sorted dtle (out.map Prod.fst) ∧
      (∀ t, alookup out t =
        (alookup (readCsvDict [(tNewC4, 7)]) t).or
          (alookup (readCsvDict ((some [(tOldC4, 5)]).getD [])) t))) ∧
    (archive_readings (archive_readings sysC4 "daily" false true nowC4).2
      "daily" false true nowC4).2.files =
      (archive_readings sysC4 "daily" false true nowC4).2.files :=
  ⟨archive_merge_and_idempotence.1 (some [(tOldC4, 5)]) [(tNewC4, 7)]
      (List.cons_ne_nil _ _),
   archive_merge_and_idempotence.2 sysC4 "daily" false nowC4⟩

/-! ### Claim C2 — eviction happens before the durable write -/

def acctC2 : ElectricityAccount :=
  ⟨"M2", "Eve", "Street 5", [], [(tOldC4, 100), (tNewC4, 105)]⟩

def sysC2 : ArchSystem := { ems := ⟨[("M2", acctC2)], true⟩, files := [] }

/-- Claim C2 is refuted by the source: `archive_readings` deletes the
archived readings from each account's dict inside the collection loop
(APIs.py lines 417-420), BEFORE the single `df.to_csv` write at line 426;
when the write raises, the `except` branch returns `False` without
restoring them.  The claim (and the spec's write-then-evict rule, and the
method's own docstring "clear the archived data from memory after
saving") says the readings must still be present after a failed write, so
this is a code bug.  The theorem evaluates the embedded code at the
failing input: a daily run with `clear_memory=True` whose durable write
fails loses both of the device's readings while writing nothing. -/
theorem archive_evict_before_write_bug :
    (archive_readings sysC2 "daily" true false nowC4).1 = false ∧
    (archive_readings sysC2 "daily" true false nowC4).2.files = [] ∧
    (alookup (archive_readings sysC2 "daily" true false nowC4).2.ems.accounts
      "M2").map ElectricityAccount.meter_readings = some [] := by
  refine ⟨?_, ?_, ?_⟩
  · rfl
  · rfl
  · rfl
